import Mathlib

/-!
# Process execution and Kubernetes readiness polling (`utils/k8sUtils.go`)

A shallow embedding of `import-export-cli/utils/k8sUtils.go`.

The Go functions talk to the outside world through `exec.Cmd` (open a stdin
pipe, write, close, run) and `time.Sleep`.  The embedding threads an explicit
`World` through every function:

* `World.trace` records, in order, every external operation performed;
* `World.script` is the scripted sequence of outcomes of the fallible external
  operations still to come: operation number `0` is the next one, and each
  fallible operation consumes one entry.

A Go `error` is an `Option String`: `none` is `nil`, `some msg` is a non-nil
error carrying `msg`.

`ExecuteCommandFromStdin` writes to the stdin pipe before `cmd.Run()` has started
the child, so nothing reads the pipe during the write: a call that can block
forever has a `Completion` as its result, which is either a returned `error` or
`blocked`.
-/

namespace K8sUtils

/-- Go `error`: `none` is `nil`. -/
abbrev GoError := Option String

/-- External operations performed by the functions of `k8sUtils.go`. -/
inductive Event where
  /-- The call `cmd.Run()` for `exec.Command(command, args...)`; `relayStderr` tells whether
  `cmd.Stderr` was connected (`setCommandOutAndError`) or not (`setCommandOutOnly`). -/
  | run (relayStderr : Bool) (command : String) (args : List String)
  /-- The call `time.Sleep(ns)`. -/
  | sleep (ns : Nat)
  /-- The call `cmd.StdinPipe()`. -/
  | stdinPipe (command : String) (args : List String)
  /-- The call `pipe.Write([]byte(payload))`. -/
  | write (payload : String)
  /-- The call `pipe.Close()`. -/
  | close
  deriving DecidableEq, Repr

/-- The outside world: the outcomes still to come and the operations done so far. -/
structure World where
  /-- Outcome of the `k`-th fallible external operation from now. -/
  script : Nat → GoError
  /-- External operations performed so far, oldest first. -/
  trace : List Event

/-- Perform one fallible external operation: record it and consume its scripted outcome. -/
def World.call (w : World) (e : Event) : GoError × World :=
  (w.script 0, { script := fun k => w.script (k + 1), trace := w.trace ++ [e] })

/-- The call `time.Sleep(ns)`: recorded, cannot fail. -/
def World.sleep (w : World) (ns : Nat) : World :=
  { w with trace := w.trace ++ [Event.sleep ns] }

/-- A world in which nothing has happened yet. -/
def World.fresh (script : Nat → GoError) : World :=
  { script := script, trace := [] }

/-- The package constants `Kubectl`, `K8sGet` and `K8sApply`, declared elsewhere in package
`utils`; their values are not used by the functions below, so they are parameters. -/
structure Consts where
  /-- The constant `Kubectl`. -/
  Kubectl : String
  /-- The constant `K8sGet`. -/
  K8sGet : String
  /-- The constant `K8sApply`. -/
  K8sApply : String

/-- Go `ExecuteCommand`: `exec.Command`, `setCommandOutAndError`, `cmd.Run()`. -/
def ExecuteCommand (command : String) (args : List String) (w : World) : GoError × World :=
  w.call (Event.run true command args)

/-- Go `ExecuteCommandWithoutPrintingErrors`: `exec.Command`, `setCommandOutOnly`, `cmd.Run()`. -/
def ExecuteCommandWithoutPrintingErrors (command : String) (args : List String) (w : World) :
    GoError × World :=
  w.call (Event.run false command args)

/-- How a call that may block ends: it returns its `error`, or it never returns. -/
inductive Completion where
  /-- The call returns `err`. -/
  | returned (err : GoError)
  /-- The call blocks forever. -/
  | blocked
  deriving DecidableEq, Repr

/-- The call `pipe.Write([]byte(payload))` on the pipe of `cmd.StdinPipe()`, made while no
process reads the pipe (the child is started by `cmd.Run()` only).  The operating system
buffers at most `pipeCapacity` bytes (65536 on Linux): a payload of more bytes fills the pipe
and the write then waits forever for a reader; a payload that fits is written and the call
returns its scripted outcome. -/
def World.pipeWrite (w : World) (pipeCapacity : Nat) (payload : String) : Completion × World :=
  if pipeCapacity < payload.utf8ByteSize then
    (Completion.blocked, { w with trace := w.trace ++ [Event.write payload] })
  else
    match w.call (Event.write payload) with
    | (err, w1) => (Completion.returned err, w1)

/-- Go `ExecuteCommandFromStdin`: open the stdin pipe, write the payload, close the pipe, run;
each of the first three steps returns its error at once.  The write happens before
`cmd.Run()`, so it is a `World.pipeWrite`; `pipeCapacity` is the capacity of the operating
system pipe. -/
def ExecuteCommandFromStdin (pipeCapacity : Nat) (stdInput : String) (command : String)
    (args : List String) (w : World) : Completion × World :=
  match w.call (Event.stdinPipe command args) with
  | (some err, w1) => (Completion.returned (some err), w1)
  | (none, w1) =>
    match w1.pipeWrite pipeCapacity stdInput with
    | (Completion.blocked, w2) => (Completion.blocked, w2)
    | (Completion.returned (some err), w2) => (Completion.returned (some err), w2)
    | (Completion.returned none, w2) =>
      match w2.call Event.close with
      | (some err, w3) => (Completion.returned (some err), w3)
      | (none, w3) =>
        match w3.call (Event.run true command args) with
        | (err, w4) => (Completion.returned err, w4)

/-- The inner loop of `K8sWaitForResourceType`:
`for _, resourceType := range resourceTypes { noErrors = true; if err := ...; err != nil
{ noErrors = false; continue } }`, returning the final value of `noErrors`. -/
def probeLoop (c : Consts) : List String → Bool → World → Bool × World
  | [], noErrors, w => (noErrors, w)
  | resourceType :: rest, _, w =>
    match ExecuteCommandWithoutPrintingErrors c.Kubectl [c.K8sGet, resourceType] w with
    | (some _, w1) => probeLoop c rest false w1
    | (none, w1) => probeLoop c rest true w1

/-- The outer loop of `K8sWaitForResourceType`:
`for i := maxTimeSec; i > 0 && !noErrors; i-- { <inner loop>; time.Sleep(1e9) }`.
The counter `i` only takes values in `0 .. maxTimeSec` (the function has returned already for
a negative `maxTimeSec`), so it is a natural number here. -/
def waitLoop (c : Consts) (resourceTypes : List String) : Nat → Bool → World → Bool × World
  | 0, noErrors, w => (noErrors, w)
  | i + 1, noErrors, w =>
    if noErrors then (noErrors, w)
    else
      match probeLoop c resourceTypes noErrors w with
      | (noErrors1, w1) => waitLoop c resourceTypes i noErrors1 (w1.sleep 1000000000)

/-- The error of `K8sWaitForResourceType` for a negative `maxTimeSec`. -/
def errNegative : String := "'maxTimeSec' should be non negative"

/-- The error of `K8sWaitForResourceType` when the loop ends with `noErrors` false. -/
def errNotInstalled : String := "kubernetes resources not installed"

/-- Go `K8sWaitForResourceType`. -/
def K8sWaitForResourceType (c : Consts) (maxTimeSec : Int) (resourceTypes : List String)
    (w : World) : GoError × World :=
  if maxTimeSec < 0 then (some errNegative, w)
  else
    match waitLoop c resourceTypes maxTimeSec.toNat false w with
    | (noErrors, w1) => if !noErrors then (some errNotInstalled, w1) else (none, w1)

/-- The loop of `K8sApplyFromFile`: `kubectlArgs = append(kubectlArgs, "-f", file)` per file. -/
def appendFileArgs : List String → List String → List String
  | kubectlArgs, [] => kubectlArgs
  | kubectlArgs, file :: rest => appendFileArgs (kubectlArgs ++ ["-f", file]) rest

/-- Go `K8sApplyFromFile`. -/
def K8sApplyFromFile (c : Consts) (fileList : List String) (w : World) : GoError × World :=
  ExecuteCommand c.Kubectl (appendFileArgs [c.K8sApply] fileList) w

/-- Go `K8sApplyFromStdin`. -/
def K8sApplyFromStdin (c : Consts) (pipeCapacity : Nat) (stdInput : String) (w : World) :
    Completion × World :=
  ExecuteCommandFromStdin pipeCapacity stdInput c.Kubectl [c.K8sApply, "-f", "-"] w

/-! ## Vocabulary of the statements -/

/-- The probe of one resource type, as an event. -/
def probeEvent (c : Consts) (resourceType : String) : Event :=
  Event.run false c.Kubectl [c.K8sGet, resourceType]

/-- One probe per list entry, in list order. -/
def probeEvents (c : Consts) (resourceTypes : List String) : List Event :=
  resourceTypes.map (probeEvent c)

/-- The events of one iteration of the polling loop: all probes, then the one-second sleep. -/
def iterationEvents (c : Consts) (resourceTypes : List String) : List Event :=
  probeEvents c resourceTypes ++ [Event.sleep 1000000000]

/-- The events of `k` iterations. -/
def iterationsTrace (c : Consts) (resourceTypes : List String) : Nat → List Event
  | 0 => []
  | k + 1 => iterationEvents c resourceTypes ++ iterationsTrace c resourceTypes k

/-- The list `xs` repeated `k` times. -/
def repeatList {α : Type} (xs : List α) : Nat → List α
  | 0 => []
  | k + 1 => xs ++ repeatList xs k

/-- Is the event a `cmd.Run()`? -/
def Event.isRun : Event → Bool
  | Event.run _ _ _ => true
  | _ => false

/-- Is the event a `time.Sleep`? -/
def Event.isSleep : Event → Bool
  | Event.sleep _ => true
  | _ => false

/-- Outcome scripted for the probe of entry `p` (0-based) in iteration `j` (1-based) when the
list has `n` entries and nothing was consumed before: probes are operation
`(j - 1) * n + p`. -/
def probeOutcome (script : Nat → GoError) (n j p : Nat) : GoError :=
  script ((j - 1) * n + p)

/-- Every probe of iteration `j` succeeds. -/
def allSucceed (script : Nat → GoError) (n j : Nat) : Prop :=
  ∀ p, p < n → probeOutcome script n j p = none

/-- The probe of the last entry of a non-empty list succeeds in iteration `j`. -/
def lastSucceeds (script : Nat → GoError) (n j : Nat) : Prop :=
  n ≠ 0 ∧ probeOutcome script n j (n - 1) = none

/-- The events added to the trace between the worlds `before` and `after`. -/
def performed (before after : World) : List Event :=
  after.trace.drop before.trace.length

/-- The arguments that follow the verb in `K8sApplyFromFile`: the pair `"-f"`, path for every
path, in input order. -/
def fileFlagArgs : List String → List String
  | [] => []
  | path :: rest => "-f" :: path :: fileFlagArgs rest

/-- Sample values of the package constants, used at concrete inputs only. -/
def sampleConsts : Consts :=
  { Kubectl := "kubectl", K8sGet := "get", K8sApply := "apply" }

/-- Iteration `i` (0-based) ends with `noErrors` true: the list is non-empty and its last probe
succeeds. -/
def readyAt (script : Nat → GoError) (n i : Nat) : Bool :=
  decide (n ≠ 0) && (script (i * n + (n - 1))).isNone

/-- A script in which operations `0, 2, 4, ...` fail and the others succeed: with a list of
two resource types, the probe of the first entry fails in every iteration and the probe of
the second entry succeeds in every iteration. -/
def scriptEvenFail : Nat → GoError :=
  fun k => if k % 2 = 0 then some "exit status 1" else none

/-- A script in which only operation `0` fails. -/
def scriptFirstFail : Nat → GoError :=
  fun k => if k = 0 then some "exit status 1" else none

/-- A payload of 65537 bytes: 65537 times the letter `a`. -/
def payload65537 : String :=
  String.mk (List.replicate 65537 'a')

/-! ## Helper lemmas -/

theorem probeLoop_eq (c : Consts) (resourceTypes : List String) (noErrors : Bool) (w : World) :
    probeLoop c resourceTypes noErrors w =
      (if resourceTypes = [] then noErrors else (w.script (resourceTypes.length - 1)).isNone,
        { script := fun k => w.script (k + resourceTypes.length),
          trace := w.trace ++ probeEvents c resourceTypes }) := by
  induction resourceTypes generalizing noErrors w with
  | nil => simp [probeLoop, probeEvents]
  | cons r rest ih =>
    have hs : ∀ k, w.script (k + rest.length + 1) = w.script (k + (rest.length + 1)) := by
      intro k; rfl
    cases h0 : w.script 0 with
    | none =>
      simp only [probeLoop, ExecuteCommandWithoutPrintingErrors, World.call, h0, ih]
      by_cases hr : rest = []
      · subst hr; simp [probeEvents, probeEvent, h0]
      · have hpos : 0 < rest.length := List.length_pos.mpr hr
        have h1 : rest.length - 1 + 1 = rest.length := by omega
        simp [hr, probeEvents, probeEvent, h1, hs]
    | some e =>
      simp only [probeLoop, ExecuteCommandWithoutPrintingErrors, World.call, h0, ih]
      by_cases hr : rest = []
      · subst hr; simp [probeEvents, probeEvent, h0]
      · have hpos : 0 < rest.length := List.length_pos.mpr hr
        have h1 : rest.length - 1 + 1 = rest.length := by omega
        simp [hr, probeEvents, probeEvent, h1, hs]

theorem probeLoop_ready (c : Consts) (resourceTypes : List String) (w : World) :
    (probeLoop c resourceTypes false w).1 = readyAt w.script resourceTypes.length 0 := by
  rw [probeLoop_eq]
  by_cases hr : resourceTypes = []
  · subst hr; simp [readyAt]
  · have hpos : 0 < resourceTypes.length := List.length_pos.mpr hr
    have : resourceTypes.length ≠ 0 := by omega
    simp [hr, readyAt, this]

theorem waitLoop_true (c : Consts) (resourceTypes : List String) (m : Nat) (w : World) :
    waitLoop c resourceTypes m true w = (true, w) := by
  cases m <;> simp [waitLoop]

theorem waitLoop_succ (c : Consts) (resourceTypes : List String) (m : Nat) (w : World) :
    waitLoop c resourceTypes (m + 1) false w =
      waitLoop c resourceTypes m (readyAt w.script resourceTypes.length 0)
        { script := fun k => w.script (k + resourceTypes.length),
          trace := w.trace ++ iterationEvents c resourceTypes } := by
  have h := probeLoop_ready c resourceTypes w
  rw [probeLoop_eq] at h
  simp only [waitLoop, probeLoop_eq, World.sleep, iterationEvents, List.append_assoc]
  simp only [Bool.false_eq_true, if_false]
  simp only at h
  rw [h]

theorem readyAt_shift (script : Nat → GoError) (n i : Nat) :
    readyAt (fun k => script (k + n)) n i = readyAt script n (i + 1) := by
  have : i * n + (n - 1) + n = (i + 1) * n + (n - 1) := by
    rw [Nat.add_mul, Nat.one_mul]; omega
  simp [readyAt, this]

/-- No iteration among the first `m` is ready: all `m` iterations run and `noErrors` ends
false. -/
theorem waitLoop_never (c : Consts) (resourceTypes : List String) (m : Nat) (w : World)
    (h : ∀ i, i < m → readyAt w.script resourceTypes.length i = false) :
    waitLoop c resourceTypes m false w =
      (false, { script := fun k => w.script (k + m * resourceTypes.length),
                trace := w.trace ++ iterationsTrace c resourceTypes m }) := by
  induction m generalizing w with
  | zero => simp [waitLoop, iterationsTrace]
  | succ m ih =>
    rw [waitLoop_succ, h 0 (Nat.succ_pos m), ih]
    · have hk : ∀ k, k + m * resourceTypes.length + resourceTypes.length
          = k + (m + 1) * resourceTypes.length := by intro k; ring
      simp [iterationsTrace, hk]
    · intro i hi
      show readyAt (fun k => w.script (k + resourceTypes.length)) resourceTypes.length i = false
      rw [readyAt_shift]
      exact h (i + 1) (by omega)

/-- Iteration `i < m` (0-based) is the first ready one: exactly `i + 1` iterations run and
`noErrors` ends true. -/
theorem waitLoop_first (c : Consts) (resourceTypes : List String) (m i : Nat) (w : World)
    (him : i < m) (hi : readyAt w.script resourceTypes.length i = true)
    (h : ∀ l, l < i → readyAt w.script resourceTypes.length l = false) :
    waitLoop c resourceTypes m false w =
      (true, { script := fun k => w.script (k + (i + 1) * resourceTypes.length),
               trace := w.trace ++ iterationsTrace c resourceTypes (i + 1) }) := by
  induction m generalizing w i with
  | zero => omega
  | succ m ih =>
    rw [waitLoop_succ]
    cases i with
    | zero =>
      rw [hi, waitLoop_true]
      simp [iterationsTrace]
    | succ i =>
      rw [h 0 (Nat.succ_pos i), ih i]
      · have hk : ∀ k, k + (i + 1) * resourceTypes.length + resourceTypes.length
            = k + (i + 1 + 1) * resourceTypes.length := by intro k; ring
        simp [iterationsTrace, hk]
      · omega
      · show readyAt (fun k => w.script (k + resourceTypes.length)) resourceTypes.length i = true
        rw [readyAt_shift]; exact hi
      · intro l hl
        show readyAt (fun k => w.script (k + resourceTypes.length)) resourceTypes.length l = false
        rw [readyAt_shift]
        exact h (l + 1) (by omega)

theorem performed_append (w : World) (script : Nat → GoError) (xs : List Event) :
    performed w { script := script, trace := w.trace ++ xs } = xs := by
  simp [performed]

theorem performed_of_trace (w w1 : World) (xs : List Event) (h : w1.trace = w.trace ++ xs) :
    performed w w1 = xs := by
  simp [performed, h]

theorem readyAt_iff (script : Nat → GoError) (n i : Nat) :
    readyAt script n i = true ↔ lastSucceeds script n (i + 1) := by
  simp [readyAt, lastSucceeds, probeOutcome]

theorem readyAt_false_iff (script : Nat → GoError) (n i : Nat) :
    readyAt script n i = false ↔ ¬ lastSucceeds script n (i + 1) := by
  rw [← readyAt_iff]; simp

/-- The two ways `K8sWaitForResourceType` ends for a non-negative `maxTimeSec`: no iteration is
ready and all of them run, or the first ready iteration is the last one run. -/
theorem wait_cases (c : Consts) (maxTimeSec : Int) (resourceTypes : List String) (w : World)
    (h : 0 ≤ maxTimeSec) :
    ((∀ i, i < maxTimeSec.toNat → readyAt w.script resourceTypes.length i = false) ∧
      (K8sWaitForResourceType c maxTimeSec resourceTypes w).1 = some errNotInstalled ∧
      (K8sWaitForResourceType c maxTimeSec resourceTypes w).2.trace =
        w.trace ++ iterationsTrace c resourceTypes maxTimeSec.toNat) ∨
    (∃ i, i < maxTimeSec.toNat ∧ readyAt w.script resourceTypes.length i = true ∧
      (∀ l, l < i → readyAt w.script resourceTypes.length l = false) ∧
      (K8sWaitForResourceType c maxTimeSec resourceTypes w).1 = none ∧
      (K8sWaitForResourceType c maxTimeSec resourceTypes w).2.trace =
        w.trace ++ iterationsTrace c resourceTypes (i + 1)) := by
  have hneg : ¬ maxTimeSec < 0 := by omega
  by_cases hex : ∃ i, i < maxTimeSec.toNat ∧ readyAt w.script resourceTypes.length i = true
  · right
    classical
    refine ⟨Nat.find hex, (Nat.find_spec hex).1, (Nat.find_spec hex).2, ?_, ?_⟩
    · intro l hl
      have hmin := Nat.find_min hex hl
      have hlt : l < maxTimeSec.toNat := lt_trans hl (Nat.find_spec hex).1
      cases hr : readyAt w.script resourceTypes.length l with
      | false => rfl
      | true => exact absurd ⟨hlt, hr⟩ hmin
    · have hfirst := waitLoop_first c resourceTypes maxTimeSec.toNat (Nat.find hex) w
        (Nat.find_spec hex).1 (Nat.find_spec hex).2 (by
          intro l hl
          have hmin := Nat.find_min hex hl
          have hlt : l < maxTimeSec.toNat := lt_trans hl (Nat.find_spec hex).1
          cases hr : readyAt w.script resourceTypes.length l with
          | false => rfl
          | true => exact absurd ⟨hlt, hr⟩ hmin)
      simp [K8sWaitForResourceType, hneg, hfirst]
  · left
    have hnever : ∀ i, i < maxTimeSec.toNat →
        readyAt w.script resourceTypes.length i = false := by
      intro i hi
      cases hr : readyAt w.script resourceTypes.length i with
      | false => rfl
      | true => exact absurd ⟨i, hi, hr⟩ hex
    have hloop := waitLoop_never c resourceTypes maxTimeSec.toNat w hnever
    refine ⟨hnever, ?_, ?_⟩ <;> simp [K8sWaitForResourceType, hneg, hloop]

theorem filter_isRun_iterationsTrace (c : Consts) (resourceTypes : List String) (k : Nat) :
    (iterationsTrace c resourceTypes k).filter Event.isRun
      = repeatList (probeEvents c resourceTypes) k := by
  induction k with
  | zero => simp [iterationsTrace, repeatList]
  | succ k ih =>
    have hp : (probeEvents c resourceTypes).filter Event.isRun = probeEvents c resourceTypes := by
      simp [probeEvents, List.filter_eq_self, probeEvent, Event.isRun]
    simp [iterationsTrace, repeatList, iterationEvents, ih, hp, Event.isSleep, Event.isRun]

theorem filter_isSleep_iterationsTrace (c : Consts) (resourceTypes : List String) (k : Nat) :
    (iterationsTrace c resourceTypes k).filter Event.isSleep
      = List.replicate k (Event.sleep 1000000000) := by
  induction k with
  | zero => simp [iterationsTrace]
  | succ k ih =>
    have hp : (probeEvents c resourceTypes).filter Event.isSleep = [] := by
      simp [probeEvents, List.filter_eq_nil_iff, probeEvent, Event.isSleep]
    simp [iterationsTrace, iterationEvents, ih, hp, Event.isSleep, List.replicate_succ]

theorem appendFileArgs_eq (kubectlArgs fileList : List String) :
    appendFileArgs kubectlArgs fileList = kubectlArgs ++ fileFlagArgs fileList := by
  induction fileList generalizing kubectlArgs with
  | nil => simp [appendFileArgs, fileFlagArgs]
  | cons f rest ih => simp [appendFileArgs, fileFlagArgs, ih]

theorem length_fileFlagArgs (fileList : List String) :
    (fileFlagArgs fileList).length = 2 * fileList.length := by
  induction fileList with
  | nil => rfl
  | cons f rest ih => simp [fileFlagArgs, ih]; omega

/-- The result and the performed events depend on the script only through `readyAt`. -/
theorem wait_congr (c : Consts) (maxTimeSec : Int) (resourceTypes : List String)
    (w w2 : World) (h : 0 ≤ maxTimeSec)
    (hsame : ∀ i, readyAt w2.script resourceTypes.length i
      = readyAt w.script resourceTypes.length i) :
    (K8sWaitForResourceType c maxTimeSec resourceTypes w2).1
        = (K8sWaitForResourceType c maxTimeSec resourceTypes w).1 ∧
      performed w2 (K8sWaitForResourceType c maxTimeSec resourceTypes w2).2
        = performed w (K8sWaitForResourceType c maxTimeSec resourceTypes w).2 := by
  rcases wait_cases c maxTimeSec resourceTypes w h with
    ⟨hn, he, ht⟩ | ⟨i, him, hi, hl, he, ht⟩ <;>
  rcases wait_cases c maxTimeSec resourceTypes w2 h with
    ⟨hn2, he2, ht2⟩ | ⟨i2, him2, hi2, hl2, he2, ht2⟩
  · rw [he, he2, performed_of_trace _ _ _ ht, performed_of_trace _ _ _ ht2]
    exact ⟨rfl, rfl⟩
  · rw [hsame, hn i2 him2] at hi2
    exact absurd hi2 (by simp)
  · rw [← hsame, hn2 i him] at hi
    exact absurd hi (by simp)
  · have hii : i2 = i := by
      rcases Nat.lt_trichotomy i2 i with hlt | heq | hgt
      · rw [hsame, hl i2 hlt] at hi2
        exact absurd hi2 (by simp)
      · exact heq
      · rw [← hsame, hl2 i hgt] at hi
        exact absurd hi (by simp)
    subst hii
    rw [he, he2, performed_of_trace _ _ _ ht, performed_of_trace _ _ _ ht2]
    exact ⟨rfl, rfl⟩

theorem utf8ByteSize_replicate_a (n : Nat) :
    (String.mk (List.replicate n 'a')).utf8ByteSize = n := by
  induction n with
  | zero => rfl
  | succ n ih =>
    have hstep : (String.mk (List.replicate (n + 1) 'a')).utf8ByteSize
        = (String.mk (List.replicate n 'a')).utf8ByteSize + 1 := rfl
    rw [hstep, ih]

/-- When the pipe opens and the payload has more bytes than the pipe holds,
`ExecuteCommandFromStdin` blocks in the write: it performs the open and the write, and
nothing else. -/
theorem ExecuteCommandFromStdin_blocked (pipeCapacity : Nat) (stdInput command : String)
    (args : List String) (w : World) (h0 : w.script 0 = none)
    (hbig : pipeCapacity < stdInput.utf8ByteSize) :
    (ExecuteCommandFromStdin pipeCapacity stdInput command args w).1 = Completion.blocked ∧
      (ExecuteCommandFromStdin pipeCapacity stdInput command args w).2.trace
        = w.trace ++ [Event.stdinPipe command args, Event.write stdInput] := by
  simp [ExecuteCommandFromStdin, World.call, World.pipeWrite, h0, hbig]

/-- When the payload fits the pipe, `ExecuteCommandFromStdin` returns: the error of the first
of open, write and close to fail, with nothing performed after that step, or else the outcome
of the run. -/
theorem ExecuteCommandFromStdin_within_capacity (pipeCapacity : Nat)
    (stdInput command : String) (args : List String) (w : World)
    (hfit : stdInput.utf8ByteSize ≤ pipeCapacity) :
    (∀ e, w.script 0 = some e →
      (ExecuteCommandFromStdin pipeCapacity stdInput command args w).1
          = Completion.returned (some e) ∧
      performed w (ExecuteCommandFromStdin pipeCapacity stdInput command args w).2
        = [Event.stdinPipe command args]) ∧
    (∀ e, w.script 0 = none → w.script 1 = some e →
      (ExecuteCommandFromStdin pipeCapacity stdInput command args w).1
          = Completion.returned (some e) ∧
      performed w (ExecuteCommandFromStdin pipeCapacity stdInput command args w).2
        = [Event.stdinPipe command args, Event.write stdInput]) ∧
    (∀ e, w.script 0 = none → w.script 1 = none → w.script 2 = some e →
      (ExecuteCommandFromStdin pipeCapacity stdInput command args w).1
          = Completion.returned (some e) ∧
      performed w (ExecuteCommandFromStdin pipeCapacity stdInput command args w).2
        = [Event.stdinPipe command args, Event.write stdInput, Event.close]) ∧
    (w.script 0 = none → w.script 1 = none → w.script 2 = none →
      (ExecuteCommandFromStdin pipeCapacity stdInput command args w).1
          = Completion.returned (w.script 3) ∧
      performed w (ExecuteCommandFromStdin pipeCapacity stdInput command args w).2
        = [Event.stdinPipe command args, Event.write stdInput, Event.close,
            Event.run true command args]) := by
  have hnot : ¬ pipeCapacity < stdInput.utf8ByteSize := by omega
  refine ⟨?_, ?_, ?_, ?_⟩
  · intro e h0
    simp [ExecuteCommandFromStdin, World.call, h0, performed]
  · intro e h0 h1
    simp [ExecuteCommandFromStdin, World.call, World.pipeWrite, hnot, h0, h1, performed]
  · intro e h0 h1 h2
    simp [ExecuteCommandFromStdin, World.call, World.pipeWrite, hnot, h0, h1, h2, performed]
  · intro h0 h1 h2
    simp [ExecuteCommandFromStdin, World.call, World.pipeWrite, hnot, h0, h1, h2, performed]

/-! ## Claims -/

/-- C3: for every negative `maxTimeSec` and every list of resource types,
`K8sWaitForResourceType` returns the validation error "'maxTimeSec' should be non negative",
which differs from the readiness-timeout error, and leaves the world untouched: no external
operation at all is performed, so no probe and no sleep. -/
theorem K8sWaitForResourceType_negative (c : Consts) (maxTimeSec : Int)
    (resourceTypes : List String) (w : World) (h : maxTimeSec < 0) :
    (K8sWaitForResourceType c maxTimeSec resourceTypes w).1
        = some "\'maxTimeSec\' should be non negative" ∧
      (K8sWaitForResourceType c maxTimeSec resourceTypes w).1 ≠ some errNotInstalled ∧
      (K8sWaitForResourceType c maxTimeSec resourceTypes w).2.trace = w.trace ∧
      performed w (K8sWaitForResourceType c maxTimeSec resourceTypes w).2 = [] ∧
      (K8sWaitForResourceType c maxTimeSec resourceTypes w).2.script = w.script := by
  have hne : errNegative ≠ errNotInstalled := by decide
  simp [K8sWaitForResourceType, h, performed, hne]
  rfl

/-- Witness of C3 at `maxTimeSec = -1` and the list `["crd"]`. -/
theorem K8sWaitForResourceType_negative_witness :
    (-1 : Int) < 0 ∧
      (K8sWaitForResourceType sampleConsts (-1) ["crd"] (World.fresh (fun _ => none))).1
        = some "\'maxTimeSec\' should be non negative" ∧
      (K8sWaitForResourceType sampleConsts (-1) ["crd"] (World.fresh (fun _ => none))).2.trace
        = [] :=
  ⟨by decide,
    (K8sWaitForResourceType_negative sampleConsts (-1) ["crd"] (World.fresh (fun _ => none))
      (by decide)).1,
    (K8sWaitForResourceType_negative sampleConsts (-1) ["crd"] (World.fresh (fun _ => none))
      (by decide)).2.2.1⟩

/-- C4: for every list of resource types, empty or not, `K8sWaitForResourceType` with
`maxTimeSec = 0` performs zero iterations, returns the readiness-timeout error
"kubernetes resources not installed", and performs no external operation: the executor is
never invoked. -/
theorem K8sWaitForResourceType_zero (c : Consts) (resourceTypes : List String) (w : World) :
    (K8sWaitForResourceType c 0 resourceTypes w).1
        = some "kubernetes resources not installed" ∧
      performed w (K8sWaitForResourceType c 0 resourceTypes w).2
        = iterationsTrace c resourceTypes 0 ∧
      performed w (K8sWaitForResourceType c 0 resourceTypes w).2 = [] ∧
      (K8sWaitForResourceType c 0 resourceTypes w).2.script = w.script := by
  simp [K8sWaitForResourceType, waitLoop, performed, iterationsTrace, errNotInstalled]

/-- C5: for every `maxTimeSec ≥ 1` and every non-empty list of resource types, if every probe
of the first iteration succeeds, `K8sWaitForResourceType` returns `nil`, and what it performed
is exactly one probe per list entry, in list order, followed by one one-second sleep. -/
theorem K8sWaitForResourceType_first_iteration (c : Consts) (maxTimeSec : Int)
    (resourceTypes : List String) (w : World) (hmax : 1 ≤ maxTimeSec)
    (hne : resourceTypes ≠ []) (hall : allSucceed w.script resourceTypes.length 1) :
    (K8sWaitForResourceType c maxTimeSec resourceTypes w).1 = none ∧
      performed w (K8sWaitForResourceType c maxTimeSec resourceTypes w).2
        = probeEvents c resourceTypes ++ [Event.sleep 1000000000] ∧
      ((performed w (K8sWaitForResourceType c maxTimeSec resourceTypes w).2).filter
        Event.isRun) = resourceTypes.map (probeEvent c) ∧
      ((performed w (K8sWaitForResourceType c maxTimeSec resourceTypes w).2).filter
        Event.isSleep).length = 1 := by
  have hneg : ¬ maxTimeSec < 0 := by omega
  have hpos : 0 < resourceTypes.length := List.length_pos.mpr hne
  have hm : 0 < maxTimeSec.toNat := by omega
  have hready : readyAt w.script resourceTypes.length 0 = true := by
    rw [readyAt_iff]
    exact ⟨by omega, hall (resourceTypes.length - 1) (by omega)⟩
  have hloop := waitLoop_first c resourceTypes maxTimeSec.toNat 0 w hm hready
    (fun l hl => absurd hl (Nat.not_lt_zero l))
  have hres : K8sWaitForResourceType c maxTimeSec resourceTypes w =
      (none, { script := fun k => w.script (k + (0 + 1) * resourceTypes.length),
               trace := w.trace ++ iterationsTrace c resourceTypes (0 + 1) }) := by
    simp [K8sWaitForResourceType, hneg, hloop]
  have hrun := filter_isRun_iterationsTrace c resourceTypes 1
  have hsleep := filter_isSleep_iterationsTrace c resourceTypes 1
  rw [hres]
  simp only [performed_append]
  refine ⟨trivial, ?_, ?_, ?_⟩
  · simp [iterationsTrace, iterationEvents]
  · rw [hrun]; simp [repeatList, probeEvents]
  · rw [hsleep]; simp

/-- Witness of C5 at `maxTimeSec = 3`, the list `["crd", "pod"]` and a script in which every
operation succeeds. -/
theorem K8sWaitForResourceType_first_iteration_witness :
    (1 : Int) ≤ 3 ∧ ["crd", "pod"] ≠ ([] : List String) ∧
      allSucceed (World.fresh (fun _ => none)).script ["crd", "pod"].length 1 ∧
      (K8sWaitForResourceType sampleConsts 3 ["crd", "pod"] (World.fresh (fun _ => none))).1
        = none ∧
      performed (World.fresh (fun _ => none))
        (K8sWaitForResourceType sampleConsts 3 ["crd", "pod"] (World.fresh (fun _ => none))).2
        = [Event.run false "kubectl" ["get", "crd"], Event.run false "kubectl" ["get", "pod"],
            Event.sleep 1000000000] :=
  ⟨by decide, by simp, by intro p _; rfl,
    (K8sWaitForResourceType_first_iteration sampleConsts 3 ["crd", "pod"]
      (World.fresh (fun _ => none)) (by decide) (by simp)
      (by intro p _; rfl)).1,
    (K8sWaitForResourceType_first_iteration sampleConsts 3 ["crd", "pod"]
      (World.fresh (fun _ => none)) (by decide) (by simp)
      (by intro p _; rfl)).2.1⟩

/-- C6: for every list of paths, `K8sApplyFromFile` performs exactly one external operation,
the run (with standard error relayed) of `Kubectl` with the arguments `K8sApply` followed by
the pair `"-f"`, path for each path in input order; that argument list has length
`1 + 2 * len(paths)`; for `["a.yaml", "b.yaml"]` it is
`[K8sApply, "-f", "a.yaml", "-f", "b.yaml"]`; and the value returned is the outcome of that
one run, unchanged, so the function fails exactly when the command fails. -/
theorem K8sApplyFromFile_invocation (c : Consts) (fileList : List String) (w : World) :
    performed w (K8sApplyFromFile c fileList w).2
        = [Event.run true c.Kubectl (c.K8sApply :: fileFlagArgs fileList)] ∧
      (c.K8sApply :: fileFlagArgs fileList).length = 1 + 2 * fileList.length ∧
      (K8sApplyFromFile c fileList w).1 = w.script 0 ∧
      ((K8sApplyFromFile c fileList w).1 ≠ none ↔ w.script 0 ≠ none) ∧
      performed w (K8sApplyFromFile c ["a.yaml", "b.yaml"] w).2
        = [Event.run true c.Kubectl [c.K8sApply, "-f", "a.yaml", "-f", "b.yaml"]] := by
  refine ⟨?_, ?_, ?_, ?_, ?_⟩
  · simp [K8sApplyFromFile, ExecuteCommand, World.call, performed, appendFileArgs_eq]
  · simp [length_fileFlagArgs]; omega
  · simp [K8sApplyFromFile, ExecuteCommand, World.call]
  · simp [K8sApplyFromFile, ExecuteCommand, World.call]
  · simp [K8sApplyFromFile, ExecuteCommand, World.call, performed, appendFileArgs]

/-- C7: for every `maxTimeSec ≥ 0`, every list of resource types and every script of
outcomes, what `K8sWaitForResourceType` performs is `k ≤ maxTimeSec` iterations, each of them
one probe per list entry in list order followed by the sleep, whatever the outcomes of the
probes are; so the full sequence of probe calls is the list of probes repeated `k` times. -/
theorem K8sWaitForResourceType_probe_sequence (c : Consts) (maxTimeSec : Int)
    (resourceTypes : List String) (w : World) (h : 0 ≤ maxTimeSec) :
    ∃ k : Nat, (k : Int) ≤ maxTimeSec ∧
      performed w (K8sWaitForResourceType c maxTimeSec resourceTypes w).2
        = iterationsTrace c resourceTypes k ∧
      (performed w (K8sWaitForResourceType c maxTimeSec resourceTypes w).2).filter Event.isRun
        = repeatList (resourceTypes.map (probeEvent c)) k := by
  rcases wait_cases c maxTimeSec resourceTypes w h with
    ⟨_, _, ht⟩ | ⟨i, him, _, _, _, ht⟩
  · refine ⟨maxTimeSec.toNat, by omega, performed_of_trace _ _ _ ht, ?_⟩
    rw [performed_of_trace _ _ _ ht, filter_isRun_iterationsTrace]; rfl
  · refine ⟨i + 1, by omega, performed_of_trace _ _ _ ht, ?_⟩
    rw [performed_of_trace _ _ _ ht, filter_isRun_iterationsTrace]; rfl

/-- Witness of C7 at `maxTimeSec = 1`, the list `["crd", "pod"]` and a script in which the
first probe fails. -/
theorem K8sWaitForResourceType_probe_sequence_witness :
    (0 : Int) ≤ 1 ∧ ∃ k : Nat, (k : Int) ≤ 1 ∧
      performed (World.fresh scriptFirstFail)
          (K8sWaitForResourceType sampleConsts 1 ["crd", "pod"]
            (World.fresh scriptFirstFail)).2
        = iterationsTrace sampleConsts ["crd", "pod"] k ∧
      (performed (World.fresh scriptFirstFail)
          (K8sWaitForResourceType sampleConsts 1 ["crd", "pod"]
            (World.fresh scriptFirstFail)).2).filter Event.isRun
        = repeatList (["crd", "pod"].map (probeEvent sampleConsts)) k :=
  ⟨by decide,
    K8sWaitForResourceType_probe_sequence sampleConsts 1 ["crd", "pod"]
      (World.fresh scriptFirstFail) (by decide)⟩

/-- C8: for every `maxTimeSec ≥ 0`, every list of resource types and every script of
outcomes, `K8sWaitForResourceType` (a total function) performs `k ≤ maxTimeSec` iterations,
each one ending with the one-second sleep, the last one and a ready one included; so the
sleeps it performs are exactly `k` sleeps of one second. -/
theorem K8sWaitForResourceType_sleeps (c : Consts) (maxTimeSec : Int)
    (resourceTypes : List String) (w : World) (h : 0 ≤ maxTimeSec) :
    ∃ k : Nat, (k : Int) ≤ maxTimeSec ∧
      performed w (K8sWaitForResourceType c maxTimeSec resourceTypes w).2
        = iterationsTrace c resourceTypes k ∧
      (performed w (K8sWaitForResourceType c maxTimeSec resourceTypes w).2).filter
          Event.isSleep = List.replicate k (Event.sleep 1000000000) ∧
      ((performed w (K8sWaitForResourceType c maxTimeSec resourceTypes w).2).filter
          Event.isSleep).length = k ∧
      ((K8sWaitForResourceType c maxTimeSec resourceTypes w).1 = none → 1 ≤ k) := by
  rcases wait_cases c maxTimeSec resourceTypes w h with
    ⟨_, he, ht⟩ | ⟨i, him, _, _, _, ht⟩
  · refine ⟨maxTimeSec.toNat, by omega, performed_of_trace _ _ _ ht, ?_, ?_, ?_⟩
    · rw [performed_of_trace _ _ _ ht, filter_isSleep_iterationsTrace]
    · rw [performed_of_trace _ _ _ ht, filter_isSleep_iterationsTrace]; simp
    · rw [he]; intro hc; exact absurd hc (by simp)
  · refine ⟨i + 1, by omega, performed_of_trace _ _ _ ht, ?_, ?_, ?_⟩
    · rw [performed_of_trace _ _ _ ht, filter_isSleep_iterationsTrace]
    · rw [performed_of_trace _ _ _ ht, filter_isSleep_iterationsTrace]; simp
    · intro _; omega

/-- Witness of C8 at `maxTimeSec = 2`, the list `["crd"]` and a script in which only the
first probe fails. -/
theorem K8sWaitForResourceType_sleeps_witness :
    (0 : Int) ≤ 2 ∧ ∃ k : Nat, (k : Int) ≤ 2 ∧
      performed (World.fresh scriptFirstFail)
          (K8sWaitForResourceType sampleConsts 2 ["crd"] (World.fresh scriptFirstFail)).2
        = iterationsTrace sampleConsts ["crd"] k ∧
      (performed (World.fresh scriptFirstFail)
          (K8sWaitForResourceType sampleConsts 2 ["crd"]
            (World.fresh scriptFirstFail)).2).filter Event.isSleep
        = List.replicate k (Event.sleep 1000000000) ∧
      ((performed (World.fresh scriptFirstFail)
          (K8sWaitForResourceType sampleConsts 2 ["crd"]
            (World.fresh scriptFirstFail)).2).filter Event.isSleep).length = k ∧
      ((K8sWaitForResourceType sampleConsts 2 ["crd"] (World.fresh scriptFirstFail)).1 = none
        → 1 ≤ k) :=
  ⟨by decide,
    K8sWaitForResourceType_sleeps sampleConsts 2 ["crd"] (World.fresh scriptFirstFail)
      (by decide)⟩

/-- C9, evaluated at a payload of 65537 bytes, a pipe of 65536 bytes (the Linux capacity) and
a script in which no operation fails: the pipe opens and no step returns an error, yet
`ExecuteCommandFromStdin` does not return the result of running the child.  It blocks in the
write, which it makes before `cmd.Run()` has started a reader: it returns nothing at all, and
what it performs is the open and the write only, so the child is never run. -/
theorem ExecuteCommandFromStdin_blocks_on_large_payload :
    payload65537.utf8ByteSize = 65537 ∧
      (ExecuteCommandFromStdin 65536 payload65537 "kubectl" ["apply", "-f", "-"]
        (World.fresh (fun _ => none))).1 = Completion.blocked ∧
      (∀ err : GoError,
        (ExecuteCommandFromStdin 65536 payload65537 "kubectl" ["apply", "-f", "-"]
          (World.fresh (fun _ => none))).1 ≠ Completion.returned err) ∧
      (ExecuteCommandFromStdin 65536 payload65537 "kubectl" ["apply", "-f", "-"]
        (World.fresh (fun _ => none))).2.trace
        = [Event.stdinPipe "kubectl" ["apply", "-f", "-"], Event.write payload65537] ∧
      ((ExecuteCommandFromStdin 65536 payload65537 "kubectl" ["apply", "-f", "-"]
        (World.fresh (fun _ => none))).2.trace.filter Event.isRun) = [] := by
  have hsize : payload65537.utf8ByteSize = 65537 := utf8ByteSize_replicate_a 65537
  have hbig : 65536 < payload65537.utf8ByteSize := by rw [hsize]; decide
  have hblock := ExecuteCommandFromStdin_blocked 65536 payload65537 "kubectl"
    ["apply", "-f", "-"] (World.fresh (fun _ => none)) rfl hbig
  refine ⟨hsize, hblock.1, ?_, ?_, ?_⟩
  · intro err hc
    rw [hblock.1] at hc
    exact Completion.noConfusion hc
  · rw [hblock.2]; rfl
  · rw [hblock.2]; rfl

/-- C10: for every `maxTimeSec ≥ 0`, every list of resource types and every script of
outcomes, `K8sWaitForResourceType` returns `nil` if and only if the list is non-empty and
there is an iteration `j`, `1 ≤ j ≤ maxTimeSec`, in which the probe of the last entry
succeeds; it then performs exactly the least such `j` iterations, and otherwise it performs
`maxTimeSec` iterations and returns the readiness-timeout error.  With an empty list it never
returns `nil`, and two scripts that agree on the probes of the last entry give the same
result and the same events. -/
theorem K8sWaitForResourceType_last_entry (c : Consts) (maxTimeSec : Int)
    (resourceTypes : List String) (w : World) (h : 0 ≤ maxTimeSec) :
    ((K8sWaitForResourceType c maxTimeSec resourceTypes w).1 = none ↔
      resourceTypes ≠ [] ∧ ∃ j : Nat, 1 ≤ j ∧ (j : Int) ≤ maxTimeSec ∧
        lastSucceeds w.script resourceTypes.length j) ∧
    (∀ j : Nat, 1 ≤ j → (j : Int) ≤ maxTimeSec →
      lastSucceeds w.script resourceTypes.length j →
      (∀ l : Nat, 1 ≤ l → l < j → ¬ lastSucceeds w.script resourceTypes.length l) →
      performed w (K8sWaitForResourceType c maxTimeSec resourceTypes w).2
        = iterationsTrace c resourceTypes j) ∧
    ((¬ ∃ j : Nat, 1 ≤ j ∧ (j : Int) ≤ maxTimeSec ∧
        lastSucceeds w.script resourceTypes.length j) →
      (K8sWaitForResourceType c maxTimeSec resourceTypes w).1
          = some "kubernetes resources not installed" ∧
        performed w (K8sWaitForResourceType c maxTimeSec resourceTypes w).2
          = iterationsTrace c resourceTypes maxTimeSec.toNat) ∧
    (resourceTypes = [] →
      (K8sWaitForResourceType c maxTimeSec resourceTypes w).1 ≠ none) ∧
    (∀ w2 : World,
      (∀ j : Nat, probeOutcome w2.script resourceTypes.length j (resourceTypes.length - 1)
        = probeOutcome w.script resourceTypes.length j (resourceTypes.length - 1)) →
      (K8sWaitForResourceType c maxTimeSec resourceTypes w2).1
          = (K8sWaitForResourceType c maxTimeSec resourceTypes w).1 ∧
        performed w2 (K8sWaitForResourceType c maxTimeSec resourceTypes w2).2
          = performed w (K8sWaitForResourceType c maxTimeSec resourceTypes w).2) := by
  have hlen : resourceTypes = [] → resourceTypes.length = 0 := by
    intro he; subst he; rfl
  have key : ((K8sWaitForResourceType c maxTimeSec resourceTypes w).1 = none ↔
      ∃ j : Nat, 1 ≤ j ∧ (j : Int) ≤ maxTimeSec ∧
        lastSucceeds w.script resourceTypes.length j) := by
    rcases wait_cases c maxTimeSec resourceTypes w h with
      ⟨hn, he, _⟩ | ⟨i, him, hi, _, he, _⟩
    · rw [he]
      constructor
      · intro hc; exact absurd hc (by simp)
      · rintro ⟨j, hj1, hjm, hlast⟩
        have hj : j - 1 + 1 = j := by omega
        have := (readyAt_false_iff w.script resourceTypes.length (j - 1)).mp
          (hn (j - 1) (by omega))
        rw [hj] at this
        exact absurd hlast this
    · rw [he]
      constructor
      · intro _
        exact ⟨i + 1, by omega, by omega, (readyAt_iff _ _ _).mp hi⟩
      · intro _; rfl
  refine ⟨?_, ?_, ?_, ?_, ?_⟩
  · rw [key]
    constructor
    · rintro ⟨j, hj1, hjm, hlast⟩
      refine ⟨?_, j, hj1, hjm, hlast⟩
      intro he
      exact hlast.1 (hlen he)
    · rintro ⟨_, hex⟩
      exact hex
  · intro j hj1 hjm hlast hleast
    rcases wait_cases c maxTimeSec resourceTypes w h with
      ⟨hn, _, _⟩ | ⟨i, him, hi, hl, _, ht⟩
    · have hj : j - 1 + 1 = j := by omega
      have := (readyAt_false_iff w.script resourceTypes.length (j - 1)).mp
        (hn (j - 1) (by omega))
      rw [hj] at this
      exact absurd hlast this
    · have hij : i + 1 = j := by
        rcases Nat.lt_trichotomy (i + 1) j with hlt | heq | hgt
        · exact absurd ((readyAt_iff _ _ _).mp hi) (hleast (i + 1) (by omega) hlt)
        · exact heq
        · have hj : j - 1 + 1 = j := by omega
          have := (readyAt_false_iff w.script resourceTypes.length (j - 1)).mp
            (hl (j - 1) (by omega))
          rw [hj] at this
          exact absurd hlast this
      rw [← hij]
      exact performed_of_trace _ _ _ ht
  · intro hno
    rcases wait_cases c maxTimeSec resourceTypes w h with
      ⟨_, he, ht⟩ | ⟨i, him, hi, _, _, _⟩
    · exact ⟨he, performed_of_trace _ _ _ ht⟩
    · exact absurd ⟨i + 1, by omega, by omega, (readyAt_iff _ _ _).mp hi⟩ hno
  · intro he hnil
    rcases key.mp hnil with ⟨j, _, _, hlast⟩
    exact hlast.1 (hlen he)
  · intro w2 hsame
    apply wait_congr c maxTimeSec resourceTypes w w2 h
    intro i
    have h1 := hsame (i + 1)
    simp only [probeOutcome, Nat.add_sub_cancel] at h1
    simp [readyAt, h1]

/-- Witness of C10 at `maxTimeSec = 2`, the list `["crd", "pod"]` and a script in which the
probe of the first entry fails in every iteration and the probe of the last entry succeeds:
the function returns `nil` after one iteration. -/
theorem K8sWaitForResourceType_last_entry_witness :
    (0 : Int) ≤ 2 ∧
      (K8sWaitForResourceType sampleConsts 2 ["crd", "pod"] (World.fresh scriptEvenFail)).1
        = none ∧
      performed (World.fresh scriptEvenFail)
          (K8sWaitForResourceType sampleConsts 2 ["crd", "pod"]
            (World.fresh scriptEvenFail)).2
        = iterationsTrace sampleConsts ["crd", "pod"] 1 :=
  ⟨by decide,
    (K8sWaitForResourceType_last_entry sampleConsts 2 ["crd", "pod"]
      (World.fresh scriptEvenFail) (by decide)).1.mpr
      ⟨by simp, 1, by decide, by decide, by decide, rfl⟩,
    (K8sWaitForResourceType_last_entry sampleConsts 2 ["crd", "pod"]
      (World.fresh scriptEvenFail) (by decide)).2.1 1 (by decide) (by decide)
      ⟨by decide, rfl⟩ (by intro l h1 h2; omega)⟩

/-- C1, evaluated at `maxTimeSec = 1`, the list `["crd", "pod"]` and a script in which the
probe of `"crd"` fails in every iteration: no iteration has all its probes succeed (each one
has a failing probe), yet `K8sWaitForResourceType` returns `nil` after one iteration instead
of the readiness-timeout error. -/
theorem K8sWaitForResourceType_nil_despite_failing_probe :
    (∀ j : Nat, ¬ allSucceed scriptEvenFail 2 j) ∧
      (∀ j : Nat, ∃ p, p < 2 ∧ probeOutcome scriptEvenFail 2 j p ≠ none) ∧
      (K8sWaitForResourceType sampleConsts 1 ["crd", "pod"] (World.fresh scriptEvenFail)).1
        = none ∧
      (K8sWaitForResourceType sampleConsts 1 ["crd", "pod"] (World.fresh scriptEvenFail)).1
        ≠ some errNotInstalled ∧
      (K8sWaitForResourceType sampleConsts 1 ["crd", "pod"]
          (World.fresh scriptEvenFail)).2.trace
        = [Event.run false "kubectl" ["get", "crd"], Event.run false "kubectl" ["get", "pod"],
            Event.sleep 1000000000] := by
  have hfail : ∀ j : Nat, probeOutcome scriptEvenFail 2 j 0 ≠ none := by
    intro j
    simp [probeOutcome, scriptEvenFail]
  refine ⟨?_, ?_, rfl, ?_, rfl⟩
  · intro j hall
    exact hfail j (hall 0 (by decide))
  · intro j
    exact ⟨0, by decide, hfail j⟩
  · intro hc
    have hnil : (K8sWaitForResourceType sampleConsts 1 ["crd", "pod"]
        (World.fresh scriptEvenFail)).1 = none := rfl
    rw [hnil] at hc
    exact absurd hc (by simp)

/-- C2, evaluated at `maxTimeSec = 2`, `k = 1`, the list `["crd", "pod"]` and a script in
which the probe of `"crd"` fails in iteration 1 and every other probe succeeds: iteration 1
has a failing probe and every probe of iteration 2 succeeds, yet `K8sWaitForResourceType`
returns `nil` after one iteration, having issued one probe per resource type, not two. -/
theorem K8sWaitForResourceType_nil_one_iteration_early :
    probeOutcome scriptFirstFail 2 1 0 ≠ none ∧
      allSucceed scriptFirstFail 2 2 ∧
      (K8sWaitForResourceType sampleConsts 2 ["crd", "pod"] (World.fresh scriptFirstFail)).1
        = none ∧
      (K8sWaitForResourceType sampleConsts 2 ["crd", "pod"]
          (World.fresh scriptFirstFail)).2.trace
        = iterationsTrace sampleConsts ["crd", "pod"] 1 ∧
      (K8sWaitForResourceType sampleConsts 2 ["crd", "pod"]
          (World.fresh scriptFirstFail)).2.trace
        ≠ iterationsTrace sampleConsts ["crd", "pod"] 2 ∧
      ((K8sWaitForResourceType sampleConsts 2 ["crd", "pod"]
          (World.fresh scriptFirstFail)).2.trace.filter Event.isRun)
        = [Event.run false "kubectl" ["get", "crd"],
            Event.run false "kubectl" ["get", "pod"]] := by
  refine ⟨by decide, ?_, rfl, rfl, by decide, rfl⟩
  intro p hp
  have : p = 0 ∨ p = 1 := by omega
  rcases this with hp0 | hp1
  · subst hp0; rfl
  · subst hp1; rfl

end K8sUtils
